import Mathlib

/-!
Verification of the match-state-machine core of the poonk-Tran repository.

The definitions below are a shallow embedding of the TypeScript sources
`backend/src/PingPongGame.ts`, `backend/src/KeyClashGame.ts` and the pong
socket namespace in `pong-app/backend/src/routes/gameRoutes.ts`.

Modelling conventions:
* JS `number` values that hold continuous quantities (positions, velocities,
  timestamps) are embedded as `ℚ`; integer-valued counters as `ℤ`/`ℕ`.
* Every `Math.random()` call site is parametrised by an explicit oracle
  argument (`r : ℚ` with `0 ≤ r < 1`, or an index `ℕ` for key draws).
* Player objects live on a heap `pdata : ℕ → Player` addressed by player id,
  so the source's mutation-through-aliasing (e.g. `matches[0].player1.side =
  "left"`) is modelled exactly: matches store player ids, and side writes go
  to the heap.
* The JS timer table is modelled by two fields: `loop : Bool` (whether the
  room currently stores an interval handle, i.e. `state.loop`/`state.interval`
  is non-null) and `timers : ℕ` (the number of intervals created with
  `setInterval` and not yet cancelled with `clearInterval` — live intervals,
  including orphaned ones whose handle was dropped).
* Display-only string fields (`timerDisplay`, `scoreDisplay`, `matchInfo`)
  and broadcast calls are omitted: they do not affect any state read by the
  engines.
-/

namespace Poonk

/-- Execution mode of a room (`"local" | "remote"`). -/
inductive Mode where
  | local
  | remote
deriving DecidableEq, Repr

/-- Room kind (`"1v1" | "tournament"`). -/
inductive Kind where
  | oneVsOne
  | tournament
deriving DecidableEq, Repr

/-- Room status (`"waiting" | "starting" | "in-progress" | "paused" | "finished"`). -/
inductive Status where
  | waiting
  | starting
  | inProgress
  | paused
  | finished
deriving DecidableEq, Repr

/-- Seat side (`"left" | "right"`). -/
inductive Side where
  | left
  | right
deriving DecidableEq, Repr

/-- `Player` from `src/types/lobby.ts`: `{ playerId, socketId, name, side }`.
Stored on the heap `pdata : ℕ → Player`; lists of players hold heap ids. -/
structure Player where
  socketId : Option String
  name : Option String
  side : Option Side
  playerId : Option ℤ
deriving DecidableEq, Repr

/-- The all-`null` player record (initial heap content). -/
def Player.empty : Player :=
  { socketId := none, name := none, side := none, playerId := none }

/-- A match entry `{ player1, player2, p1score, p2score, winner, duration }`
(identical shape in both engines); players referenced by heap id. -/
structure GMatch where
  player1 : ℕ
  player2 : ℕ
  p1score : ℤ
  p2score : ℤ
  winner : Option ℕ
  duration : ℤ
deriving DecidableEq, Repr

instance : Inhabited GMatch :=
  ⟨{ player1 := 0, player2 := 0, p1score := 0, p2score := 0, winner := none, duration := 0 }⟩

/-- Pointwise heap update (`fun j => if j = i then v else f j`). -/
def upd (f : ℕ → Player) (i : ℕ) (v : Player) : ℕ → Player :=
  fun j => if j = i then v else f j

/-- `l` with the element at index `i` replaced by `f` of it (JS
`l[i].field = …` on an in-range index; out-of-range is a no-op). -/
def modifyAt {α : Type} : List α → ℕ → (α → α) → List α
  | [], _, _ => []
  | a :: l, 0, f => f a :: l
  | a :: l, n + 1, f => a :: modifyAt l n f

/-- First index of `x` in `l`, if present (JS `indexOf` with the `-1` case
mapped to `none`). -/
def idxOf? : List String → String → Option ℕ
  | [], _ => none
  | a :: l, x => if a = x then some 0 else (idxOf? l x).map (· + 1)

/-- Fisher–Yates swap of indices `i` and `j` (no-op if either is out of range). -/
def swapIdx {α : Type} (l : List α) (i j : ℕ) : List α :=
  match l[i]?, l[j]? with
  | some a, some b => (l.set i b).set j a
  | _, _ => l

/-- The loop body of `shufflePlayers`: for `i = n−1` down to `1`, swap index
`i` with `j = ⌊rand·(i+1)⌋`; the oracle list `rs` supplies each `j` (reduced
`mod i+1` to stay in the JS range `[0, i]`). -/
def shuffleAux {α : Type} : List α → ℕ → List ℕ → List α
  | a, 0, _ => a
  | a, _ + 1, [] => a
  | a, i + 1, r :: rs => shuffleAux (swapIdx a (i + 1) (r % (i + 2))) i rs

/-- `shufflePlayers` from `PingPongGame.ts` (shared by both engines). -/
def shufflePlayers {α : Type} (rs : List ℕ) (a : List α) : List α :=
  shuffleAux a (a.length - 1) rs

/-! ## Paddle engine (`PingPongGame.ts`) -/

/-- The ball record `{ x, z, vx, vz, color }`. -/
structure Ball where
  x : ℚ
  z : ℚ
  vx : ℚ
  vz : ℚ
  color : ℕ
deriving DecidableEq, Repr

/-- A paddle `{ x, z }`. -/
structure Paddle where
  x : ℚ
  z : ℚ
deriving DecidableEq, Repr

/-- Flattened state of a `PingPongGame` instance: the public `state` object
plus the private class fields (`hitter`, `leftScore`, `rightScore`, `last`,
`leftPlayer`, `rightPlayer`). -/
structure PongState where
  ball : Ball
  leftPaddle : Paddle
  rightPaddle : Paddle
  status : Status
  loop : Bool
  timers : ℕ
  players : List ℕ
  pdata : ℕ → Player
  matchList : List GMatch
  mode : Mode
  kind : Kind
  round : ℕ
  gameEndTime : ℚ
  whenPaused : ℚ
  player1ready : Bool
  player2ready : Bool
  leftPlayer : Option String
  rightPlayer : Option String
  hitter : ℕ
  leftScore : ℤ
  rightScore : ℤ
  last : ℚ

/-- `bounds = { x: 9.6, z: 5.6 }`, `maxScore = 3`, `gameDuration = 120000`. -/
def xBound : ℚ := 48 / 5

def zBound : ℚ := 28 / 5

def maxScore : ℤ := 3

def gameDuration : ℚ := 120000

/-- The constructor of `PingPongGame`, with `performance.now()` passed as `t0`. -/
def PongState.init (mode : Mode) (kind : Kind) (t0 : ℚ) : PongState :=
  { ball := { x := 0, z := 0, vx := 6, vz := 7 / 2, color := 0xffffff }
    leftPaddle := { x := -(41 / 5), z := 0 }
    rightPaddle := { x := 41 / 5, z := 0 }
    status := .waiting
    loop := false
    timers := 0
    players := []
    pdata := fun _ => Player.empty
    matchList := []
    mode := mode
    kind := kind
    round := 0
    gameEndTime := t0 + gameDuration
    whenPaused := t0
    player1ready := false
    player2ready := false
    leftPlayer := some "Player1"
    rightPlayer := some "Player2"
    hitter := 0
    leftScore := 0
    rightScore := 0
    last := t0 }

/-- `resetGame`, with `performance.now()` as `now` and the two `Math.random()`
draws as `r1` (serve direction) and `r2` (serve z-velocity). -/
def resetGame (s : PongState) (now r1 r2 : ℚ) : PongState :=
  { s with
    leftScore := 0
    rightScore := 0
    hitter := 0
    ball := { x := 0, z := 0, vx := (if r1 > 1 / 2 then 1 else -1) * 6,
              vz := (r2 - 1 / 2) * 4, color := 0xffffff }
    leftPaddle := { s.leftPaddle with z := 0 }
    rightPaddle := { s.rightPaddle with z := 0 }
    last := now
    gameEndTime := now + gameDuration }

/-- `// Move ball`: `z += vz*dt; x += vx*dt`. -/
def moveBall (b : Ball) (dt : ℚ) : Ball :=
  { b with z := b.z + b.vz * dt, x := b.x + b.vx * dt }

/-- `// Bounce on table sides (z)`: clamp `z` to `±5.6` and negate `vz` when
the bound is crossed. -/
def bounceZ (b : Ball) : Ball :=
  if b.z > zBound ∨ b.z < -zBound then
    let b :=
      if b.z > zBound then { b with z := zBound }
      else if b.z < -zBound then { b with z := -zBound }
      else b
    { b with vz := b.vz * (-1) }
  else b

/-- `Math.abs` (defined explicitly so that the kernel can evaluate it). -/
def ratAbs (q : ℚ) : ℚ := if q < 0 then -q else q

/-- `paddleHit`: ball within `|Δx| < 1.5` and `|Δz| < 2.0` of the paddle. -/
def paddleHit (b : Ball) (p : Paddle) : Bool :=
  ratAbs (b.x - p.x) < 3 / 2 ∧ ratAbs (b.z - p.z) < 2

/-- Left-paddle collision branch of `update`. -/
def collideLeft (s : PongState) : PongState :=
  if paddleHit s.ball s.leftPaddle ∧ s.ball.vx < 0 then
    { s with
      ball := { s.ball with
                vx := s.ball.vx * (-(21 / 20))
                vz := s.ball.vz + (s.ball.z - s.leftPaddle.z) * 2
                color := 0xff6b6b }
      hitter := 1 }
  else s

/-- Right-paddle collision branch of `update`. -/
def collideRight (s : PongState) : PongState :=
  if paddleHit s.ball s.rightPaddle ∧ s.ball.vx > 0 then
    { s with
      ball := { s.ball with
                vx := s.ball.vx * (-(21 / 20))
                vz := s.ball.vz + (s.ball.z - s.rightPaddle.z) * 2
                color := 0x6b8cff }
      hitter := 2 }
  else s

/-- The movement, wall-bounce and paddle-collision phases of `update`. -/
def physPhase (s : PongState) (dt : ℚ) : PongState :=
  collideRight (collideLeft { s with ball := bounceZ (moveBall s.ball dt) })

/-- `// Score and reset`: on crossing `±9.6`, award a point to the side
opposite the crossed bound iff `hitter ≠ 0`, then re-serve from the centre
(`r1`, `r2` are the two `Math.random()` draws). -/
def scoreAndReset (s : PongState) (r1 r2 : ℚ) : PongState :=
  if s.ball.x < -xBound ∨ s.ball.x > xBound then
    let s :=
      if s.ball.x < -xBound ∧ s.hitter ≠ 0 then
        { s with hitter := 0, rightScore := s.rightScore + 1 }
      else if s.ball.x > xBound ∧ s.hitter ≠ 0 then
        { s with hitter := 0, leftScore := s.leftScore + 1 }
      else s
    { s with
      ball := { x := 0, z := 0, vx := (if r1 > 1 / 2 then 1 else -1) * 6,
                vz := (r2 - 1 / 2) * 4, color := 0xffffff } }
  else s

/-- Wall-clock finalisation branch of `update` (`now >= gameEndTime`):
record scores and `duration = 120`, decide the winner (higher score; on a tie
`1v1` records none and tournament records player2). -/
def finalizeTimeout (s : PongState) : PongState :=
  { s with
    status := .finished
    matchList := modifyAt s.matchList (s.round - 1) (fun m =>
      let m := { m with p1score := s.leftScore, p2score := s.rightScore, duration := 120 }
      if s.leftScore > s.rightScore then { m with winner := some m.player1 }
      else if s.rightScore > s.leftScore then { m with winner := some m.player2 }
      else if s.kind = Kind.oneVsOne then m
      else { m with winner := some m.player2 }) }

/-- Score-threshold finalisation branch of `update`: record scores and
`duration = 120 − secondsLeft`, winner is the strictly higher score
(player2 on the unreachable tie). -/
def finalizeScore (s : PongState) (totalSecondsLeft : ℤ) : PongState :=
  { s with
    status := .finished
    matchList := modifyAt s.matchList (s.round - 1) (fun m =>
      let m := { m with p1score := s.leftScore, p2score := s.rightScore,
                        duration := 120 - totalSecondsLeft }
      if s.leftScore > s.rightScore then { m with winner := some m.player1 }
      else { m with winner := some m.player2 }) }

/-- `PingPongGame.update`, with `performance.now()` as `now` and the serve
randomness as `r1`, `r2`. -/
def update (s : PongState) (now r1 r2 : ℚ) : PongState :=
  if s.status ≠ Status.inProgress then s
  else
    let totalSecondsLeft : ℤ := max 0 ⌊(s.gameEndTime - now) / 1000⌋
    if now ≥ s.gameEndTime then finalizeTimeout s
    else
      let dt : ℚ := min ((now - s.last) / 1000) (33 / 1000)
      let s := { s with last := now }
      if maxScore ≤ s.leftScore ∨ maxScore ≤ s.rightScore then
        finalizeScore s totalSecondsLeft
      else
        scoreAndReset (physPhase s dt) r1 r2

/-- `resetPlayerSides` / the `players.forEach(player => { player.side = null })`
loops: clear the `side` field of every seated player on the heap. -/
def resetSides (s : PongState) : PongState :=
  { s with pdata := s.players.foldl (fun f pid => upd f pid { f pid with side := none }) s.pdata }

/-- Heap write `player.side = sd`. -/
def setSide (f : ℕ → Player) (pid : ℕ) (sd : Side) : ℕ → Player :=
  upd f pid { f pid with side := some sd }

/-- A fresh match entry `{ player1: a, player2: b, p1score: 0, p2score: 0,
winner: null, duration: 0 }`. -/
def newMatch (a b : ℕ) : GMatch :=
  { player1 := a, player2 := b, p1score := 0, p2score := 0, winner := none, duration := 0 }

/-- `PingPongGame.matchmake`; `rs` feeds the round-1 shuffle. -/
def pongMatchmake (s : PongState) (rs : List ℕ) : PongState :=
  if s.round = 1 then
    let ps := shufflePlayers rs s.players
    let m0 := newMatch (ps.getD 0 0) (ps.getD 1 0)
    let m1 := newMatch (ps.getD 2 0) (ps.getD 3 0)
    let s := { s with players := ps, matchList := s.matchList ++ [m0, m1],
                      leftPlayer := (s.pdata m0.player1).name,
                      rightPlayer := (s.pdata m0.player2).name }
    let s := resetSides s
    { s with pdata := setSide (setSide s.pdata m0.player1 .left) m0.player2 .right }
  else if s.round = 2 then
    match s.matchList[1]? with
    | some m1 =>
      let s := { s with leftPlayer := (s.pdata m1.player1).name,
                        rightPlayer := (s.pdata m1.player2).name }
      let s := resetSides s
      { s with pdata := setSide (setSide s.pdata m1.player1 .left) m1.player2 .right }
    | none => s
  else if s.round = 3 then
    match s.matchList[0]?, s.matchList[1]? with
    | some m0, some m1 =>
      match m0.winner, m1.winner with
      | some w0, some w1 =>
        let s := { s with matchList := s.matchList ++ [newMatch w0 w1],
                          leftPlayer := (s.pdata w0).name,
                          rightPlayer := (s.pdata w1).name }
        let s := resetSides s
        { s with pdata := setSide (setSide s.pdata w0 .left) w1 .right }
      | _, _ => s
    | _, _ => s
  else s

/-- `startGame` of the 1v1 pong namespace (`gameRoutes.ts`): force the status
to in-progress, and only when no interval handle is stored, seat-lookup the
two players, append the match, reset the simulation and start one interval. -/
def pongStartGame1v1 (s : PongState) (now r1 r2 : ℚ) : PongState :=
  let s := { s with status := .inProgress }
  if s.loop = false then
    match s.players.find? (fun pid => (s.pdata pid).side = some Side.left),
          s.players.find? (fun pid => (s.pdata pid).side = some Side.right) with
    | some p1, some p2 =>
      let s := { s with matchList := s.matchList ++ [newMatch p1 p2],
                        round := s.round + 1 }
      let s := resetGame s now r1 r2
      { s with player1ready := false, player2ready := false,
               loop := true, timers := s.timers + 1 }
    | _, _ => s
  else s

/-- `togglePause` (`gameRoutes.ts`): with a live interval, cancel it, record
`whenPaused` and enter `paused`; from `paused`, extend `gameEndTime` by the
pause duration and start a fresh interval. -/
def togglePause (s : PongState) (now : ℚ) : PongState :=
  if s.loop then
    { s with whenPaused := now, loop := false, timers := s.timers - 1,
             status := .paused }
  else if s.status = Status.paused then
    { s with status := .inProgress,
             gameEndTime := s.gameEndTime + (now - s.whenPaused),
             loop := true, timers := s.timers + 1 }
  else s

/-- The `"pause"` socket handler: `togglePause` guarded by local mode. -/
def pauseEvent (s : PongState) (now : ℚ) : PongState :=
  if s.mode = Mode.local then togglePause s now else s

/-- The pong `"disconnect"` handler: remove the player, then either tear the
tournament room down (without touching the interval), or for 1v1 cancel the
interval and fall back to waiting when below two players. Returns the room
state paired with whether the room was removed from its registry. -/
def pongDisconnect (s : PongState) (sid : String) : PongState × Bool :=
  let s :=
    match s.players.findIdx? (fun pid => (s.pdata pid).socketId = some sid) with
    | some i => { s with players := s.players.eraseIdx i }
    | none => s
  if s.kind = Kind.tournament then
    (s, s.status ≠ Status.waiting ∨ s.players = [] ∨ s.mode = Mode.local)
  else
    let s :=
      if s.players.length < 2 then
        { s with timers := s.timers - (if s.loop then 1 else 0),
                 loop := false, status := .waiting }
      else s
    (s, s.players = [] ∨ s.mode = Mode.local)

/-! ## Reaction engine (`KeyClashGame.ts`) -/

/-- `wasdKeys` / `arrowKeys`. -/
def wasdKeys : List String := ["w", "s", "a", "d"]

def arrowKeys : List String := ["ArrowUp", "ArrowDown", "ArrowLeft", "ArrowRight"]

/-- `getRandomKey`: a uniformly drawn element; the oracle `r` supplies
`⌊rand·length⌋` (reduced mod the length). -/
def getRandomKey (keys : List String) (r : ℕ) : String :=
  keys.getD (r % keys.length) ""

/-- The key-clash room `state` object. -/
structure KCState where
  score1 : ℤ
  score2 : ℤ
  prompts : String × String
  timeLeft : ℤ
  players : List ℕ
  pdata : ℕ → Player
  matchList : List GMatch
  intervalLive : Bool
  timers : ℕ
  player1ready : Bool
  player2ready : Bool
  p1 : Option String
  p2 : Option String
  status : Status
  mode : Mode
  kind : Kind
  round : ℕ

/-- Side-reset loop of the key-clash `matchmake`. -/
def kcResetSides (s : KCState) : KCState :=
  { s with pdata := s.players.foldl (fun f pid => upd f pid { f pid with side := none }) s.pdata }

/-- `matchmake` inside `setupKeyClash`; `rs` feeds the round-1 shuffle. -/
def kcMatchmake (s : KCState) (rs : List ℕ) : KCState :=
  let s :=
    if s.round = 1 then
      let ps := shufflePlayers rs s.players
      let m0 := newMatch (ps.getD 0 0) (ps.getD 1 0)
      let m1 := newMatch (ps.getD 2 0) (ps.getD 3 0)
      let s := { s with players := ps, matchList := s.matchList ++ [m0, m1],
                        p1 := (s.pdata m0.player1).name,
                        p2 := (s.pdata m0.player2).name }
      let s := kcResetSides s
      { s with pdata := setSide (setSide s.pdata m0.player1 .left) m0.player2 .right }
    else if s.round = 2 then
      match s.matchList[1]? with
      | some m1 =>
        let s := { s with p1 := (s.pdata m1.player1).name,
                          p2 := (s.pdata m1.player2).name }
        let s := kcResetSides s
        { s with pdata := setSide (setSide s.pdata m1.player1 .left) m1.player2 .right }
      | none => s
    else if s.round = 3 then
      match s.matchList[0]?, s.matchList[1]? with
      | some m0, some m1 =>
        match m0.winner, m1.winner with
        | some w0, some w1 =>
          let s := { s with matchList := s.matchList ++ [newMatch w0 w1],
                            p1 := (s.pdata w0).name, p2 := (s.pdata w1).name }
          let s := kcResetSides s
          { s with pdata := setSide (setSide s.pdata w0 .left) w1 .right }
        | _, _ => s
      | _, _ => s
    else s
  if s.round ≤ 3 then { s with status := .starting, timeLeft := 20 } else s

/-- `startGame` inside `setupKeyClash`: a no-op while already in-progress;
otherwise (for 1v1) append the match, reset scores/clock, draw both prompts
(`rw`, `ra`) and start one interval. -/
def kcStartGame (s : KCState) (rw ra : ℕ) : KCState :=
  if s.status = Status.inProgress then s
  else
    let s := { s with status := .inProgress }
    let s :=
      if s.kind = Kind.oneVsOne then
        { s with round := s.round + 1,
                 matchList := s.matchList ++ [newMatch (s.players.getD 0 0) (s.players.getD 1 0)] }
      else s
    { s with score1 := 0, score2 := 0, timeLeft := 20,
             prompts := (getRandomKey wasdKeys rw, getRandomKey arrowKeys ra),
             intervalLive := true, timers := s.timers + 1 }

/-- The body of the once-per-second interval of `startGame`: decrement the
countdown; at zero cancel the interval, finalize the match (higher score wins,
a tie goes to player2) and, in tournaments, advance the round and re-matchmake
(`rs` feeds the round-1 shuffle parameter of `matchmake`, unused here). -/
def kcTick (s : KCState) (rs : List ℕ) : KCState :=
  let s := { s with timeLeft := s.timeLeft - 1 }
  if s.timeLeft ≤ 0 ∧ s.intervalLive then
    let s := { s with intervalLive := false, timers := s.timers - 1,
                      status := .finished, player1ready := false, player2ready := false }
    let s := { s with matchList := modifyAt s.matchList (s.round - 1) (fun m =>
      let m :=
        if s.score1 > s.score2 then { m with winner := some m.player1 }
        else { m with winner := some m.player2 }
      { m with p1score := s.score1, p2score := s.score2, duration := 20 }) }
    if s.kind = Kind.tournament then kcMatchmake { s with round := s.round + 1 } rs
    else s
  else s

/-- The `"keypress"` handler: `pid` is the heap id of the player whose socket
sent the key, `mode` the join-request mode argument, `rw`/`ra` the prompt
redraw oracles. -/
def kcKeypress (s : KCState) (mode : Mode) (pid : ℕ) (key : String) (rw ra : ℕ) : KCState :=
  if s.timeLeft ≤ 0 ∨ s.status ≠ Status.inProgress then s
  else if mode = Mode.remote then
    let s :=
      if (s.pdata pid).side = some Side.left then
        if key = s.prompts.1 ∨ some key = ((idxOf? wasdKeys s.prompts.1).bind (fun i => arrowKeys[i]?)) then
          { s with score1 := s.score1 + 1, prompts := (getRandomKey wasdKeys rw, s.prompts.2) }
        else { s with score1 := s.score1 - 1 }
      else s
    if (s.pdata pid).side = some Side.right then
      if key = s.prompts.2 ∨ some key = ((idxOf? arrowKeys s.prompts.2).bind (fun i => wasdKeys[i]?)) then
        { s with score2 := s.score2 + 1, prompts := (s.prompts.1, getRandomKey arrowKeys ra) }
      else { s with score2 := s.score2 - 1 }
    else s
  else
    if key ∈ wasdKeys then
      if key = s.prompts.1 then
        { s with score1 := s.score1 + 1, prompts := (getRandomKey wasdKeys rw, s.prompts.2) }
      else { s with score1 := s.score1 - 1 }
    else if key ∈ arrowKeys then
      if key = s.prompts.2 then
        { s with score2 := s.score2 + 1, prompts := (s.prompts.1, getRandomKey arrowKeys ra) }
      else { s with score2 := s.score2 - 1 }
    else s

/-- The key-clash `"disconnect"` handler: null out the seat name, remove the
player, then either tear the tournament down (without touching the interval)
or cancel the interval and revert to waiting when a 1v1 room drops below two
players. Returns the room paired with whether it was removed from its
registry. -/
def kcDisconnect (s : KCState) (sid : String) : KCState × Bool :=
  let s :=
    match s.players.findIdx? (fun pid => (s.pdata pid).socketId = some sid) with
    | some i =>
      let pid := s.players.getD i 0
      let s :=
        if (s.pdata pid).side = some Side.left then { s with p1 := none }
        else if (s.pdata pid).side = some Side.right then { s with p2 := none }
        else s
      { s with players := s.players.eraseIdx i }
    | none => s
  if s.kind = Kind.tournament then
    (s, s.status ≠ Status.waiting ∨ s.players = [] ∨ s.mode = Mode.local)
  else
    let s :=
      if s.players.length < 2 then
        let s :=
          if s.intervalLive then { s with intervalLive := false, timers := s.timers - 1 }
          else s
        { s with status := .waiting, player1ready := false, player2ready := false }
      else s
    (s, s.players = [] ∨ s.mode = Mode.local)

/-! ## Name validation (`validatePlayerNames` and the join-time checks) -/

/-- The four-name payload submitted on the `"names"` event. -/
structure Names where
  player1 : String
  player2 : String
  player3 : String
  player4 : String
deriving DecidableEq, Repr

/-- A character of the class `[A-Za-z0-9 _-]`. -/
def validChar (c : Char) : Bool :=
  ('A' ≤ c ∧ c ≤ 'Z') ∨ ('a' ≤ c ∧ c ≤ 'z') ∨ ('0' ≤ c ∧ c ≤ '9') ∨
    c = ' ' ∨ c = '_' ∨ c = '-'

/-- Truthy, at most 20 characters, and matching `/^[A-Za-z0-9 _-]+$/`. -/
def validName (nm : String) : Bool :=
  ¬nm = "" ∧ nm.length ≤ 20 ∧ nm.data.all validChar

/-- `validatePlayerNames`: returns the 1-based index of the first offending
name, `0` when all required names pass. Only local mode checks `player2`, and
only a local tournament checks `player3`/`player4`; the duplicate checks are
between consecutive names only. -/
def validatePlayerNames (ns : Names) (kind : Kind) (mode : Mode) : ℕ :=
  if validName ns.player1 = false then 1
  else if mode = Mode.local ∧ (validName ns.player2 = false ∨ ns.player2 = ns.player1) then 2
  else if mode = Mode.local ∧ kind = Kind.tournament ∧
      (validName ns.player3 = false ∨ ns.player3 = ns.player2) then 3
  else if mode = Mode.local ∧ kind = Kind.tournament ∧
      (validName ns.player4 = false ∨ ns.player4 = ns.player3) then 4
  else 0

/-- Join rejection reasons of the `"names"` handler. -/
inductive JoinErr where
  | invalidName (n : ℕ)
  | nameTaken
deriving DecidableEq, Repr

/-- The validation prefix of the `"names"` handler (`KeyClashGame.ts` and the
tournament pong join): `validatePlayerNames`, then the proposed `player1`
name is compared against the names of the at most three already-seated
players. `seated` is the list of seated players' `name` fields. -/
def namesCheck (seated : List (Option String)) (ns : Names) (kind : Kind) (mode : Mode) :
    Option JoinErr :=
  let pnum := validatePlayerNames ns kind mode
  if pnum > 0 then some (.invalidName pnum)
  else if 1 ≤ seated.length ∧ seated.getD 0 none = some ns.player1 then some .nameTaken
  else if 2 ≤ seated.length ∧ seated.getD 1 none = some ns.player1 then some .nameTaken
  else if 3 ≤ seated.length ∧ seated.getD 2 none = some ns.player1 then some .nameTaken
  else none

/-! ## Auxiliary lemmas -/

theorem modifyAt_length {α : Type} (l : List α) (i : ℕ) (f : α → α) :
    (modifyAt l i f).length = l.length := by
  induction l generalizing i with
  | nil => rfl
  | cons a l ih =>
    cases i with
    | zero => rfl
    | succ n => simpa [modifyAt] using ih n

theorem modifyAt_getElem?_self {α : Type} (l : List α) (i : ℕ) (f : α → α) :
    (modifyAt l i f)[i]? = l[i]?.map f := by
  induction l generalizing i with
  | nil => rfl
  | cons a l ih =>
    cases i with
    | zero => simp [modifyAt]
    | succ n => simpa [modifyAt] using ih n

theorem swapIdx_length {α : Type} (l : List α) (i j : ℕ) :
    (swapIdx l i j).length = l.length := by
  unfold swapIdx
  rcases h1 : l[i]? with _ | a <;> rcases h2 : l[j]? with _ | b <;> simp

theorem shuffleAux_length {α : Type} (a : List α) (n : ℕ) (rs : List ℕ) :
    (shuffleAux a n rs).length = a.length := by
  induction n generalizing a rs with
  | zero => rfl
  | succ i ih =>
    cases rs with
    | nil => rfl
    | cons r rs => simpa [shuffleAux, swapIdx_length] using ih (swapIdx a (i + 1) (r % (i + 2))) rs

theorem shufflePlayers_length {α : Type} (rs : List ℕ) (a : List α) :
    (shufflePlayers rs a).length = a.length := by
  simpa [shufflePlayers] using shuffleAux_length a (a.length - 1) rs

theorem finalizeTimeout_ball (s : PongState) : (finalizeTimeout s).ball = s.ball := rfl

theorem finalizeScore_ball (s : PongState) (t : ℤ) : (finalizeScore s t).ball = s.ball := rfl

theorem bounceZ_x (b : Ball) : (bounceZ b).x = b.x := by
  unfold bounceZ
  split_ifs <;> rfl

theorem abs_bounceZ_z (b : Ball) : |(bounceZ b).z| ≤ zBound := by
  unfold bounceZ
  split_ifs with h h1 h2
  · rw [abs_le]; constructor <;> norm_num [zBound]
  · rw [abs_le]; constructor <;> norm_num [zBound]
  · push_neg at h1 h2
    rcases h with h | h
    · exact absurd h1 (not_le.mpr h)
    · exact absurd h2 (not_le.mpr h)
  · push_neg at h
    rw [abs_le]
    exact ⟨h.2, h.1⟩

theorem collideLeft_ball_x (s : PongState) : (collideLeft s).ball.x = s.ball.x := by
  unfold collideLeft
  split_ifs <;> rfl

theorem collideLeft_ball_z (s : PongState) : (collideLeft s).ball.z = s.ball.z := by
  unfold collideLeft
  split_ifs <;> rfl

theorem collideRight_ball_x (s : PongState) : (collideRight s).ball.x = s.ball.x := by
  unfold collideRight
  split_ifs <;> rfl

theorem collideRight_ball_z (s : PongState) : (collideRight s).ball.z = s.ball.z := by
  unfold collideRight
  split_ifs <;> rfl

theorem abs_scoreAndReset_x (s : PongState) (r1 r2 : ℚ) :
    |(scoreAndReset s r1 r2).ball.x| ≤ xBound := by
  unfold scoreAndReset
  by_cases h : s.ball.x < -xBound ∨ s.ball.x > xBound
  · rw [if_pos h]
    show |(0 : ℚ)| ≤ xBound
    rw [abs_zero]; norm_num [xBound]
  · rw [if_neg h]
    push_neg at h
    rw [abs_le]
    exact ⟨h.1, h.2⟩

theorem abs_scoreAndReset_z (s : PongState) (r1 r2 : ℚ) (h : |s.ball.z| ≤ zBound) :
    |(scoreAndReset s r1 r2).ball.z| ≤ zBound := by
  unfold scoreAndReset
  by_cases h0 : s.ball.x < -xBound ∨ s.ball.x > xBound
  · rw [if_pos h0]
    show |(0 : ℚ)| ≤ zBound
    rw [abs_zero]; norm_num [zBound]
  · rw [if_neg h0]
    exact h

theorem physPhase_ball_x (s : PongState) (dt : ℚ) :
    (physPhase s dt).ball.x = s.ball.x + s.ball.vx * dt := by
  unfold physPhase
  rw [collideRight_ball_x, collideLeft_ball_x]
  simp [bounceZ_x, moveBall]

theorem abs_physPhase_ball_z (s : PongState) (dt : ℚ) :
    |(physPhase s dt).ball.z| ≤ zBound := by
  unfold physPhase
  rw [collideRight_ball_z, collideLeft_ball_z]
  exact abs_bounceZ_z _

/-- Ball bounds invariant target. -/
def inBounds (b : Ball) : Prop := |b.x| ≤ xBound ∧ |b.z| ≤ zBound

theorem update_inBounds (s : PongState) (now r1 r2 : ℚ) (h : inBounds s.ball) :
    inBounds (update s now r1 r2).ball := by
  unfold update
  split_ifs with h1 h2
  · exact h
  · rw [finalizeTimeout_ball]; exact h
  · dsimp only
    split_ifs with h3
    · rw [finalizeScore_ball]; exact h
    · exact ⟨abs_scoreAndReset_x _ _ _, abs_scoreAndReset_z _ _ _ (abs_physPhase_ball_z _ _)⟩

theorem resetGame_inBounds (s : PongState) (now r1 r2 : ℚ) :
    inBounds (resetGame s now r1 r2).ball := by
  constructor
  · show |(0 : ℚ)| ≤ xBound
    rw [abs_zero]; norm_num [xBound]
  · show |(0 : ℚ)| ≤ zBound
    rw [abs_zero]; norm_num [zBound]

/-- All states a pong room can reach: the constructor, ticks of `update`,
`resetGame` (called from every start/restart path), and any other handler —
none of which touches the ball (`ballPreserved`). -/
inductive Reachable : PongState → Prop where
  | init (mode : Mode) (kind : Kind) (t0 : ℚ) : Reachable (PongState.init mode kind t0)
  | tick {s : PongState} (now r1 r2 : ℚ) : Reachable s → Reachable (update s now r1 r2)
  | reset {s : PongState} (now r1 r2 : ℚ) : Reachable s → Reachable (resetGame s now r1 r2)
  | ballPreserved {s t : PongState} : Reachable s → t.ball = s.ball → Reachable t

/-- C2 (confirmed). In the Paddle engine, from every reachable state,
immediately after the per-tick `update` returns the ball position satisfies
`|ball.x| ≤ 9.6` and `|ball.z| ≤ 5.6` — indeed the bounds hold in every
reachable state, updates included. -/
theorem C2_ball_within_bounds (s : PongState) (h : Reachable s) :
    |s.ball.x| ≤ 9.6 ∧ |s.ball.z| ≤ 5.6 := by
  have hb : inBounds s.ball := by
    induction h with
    | init mode kind t0 =>
      constructor <;> simp [PongState.init, xBound, zBound] <;> norm_num
    | tick now r1 r2 _ ih => exact update_inBounds _ now r1 r2 ih
    | reset now r1 r2 _ _ => exact resetGame_inBounds _ now r1 r2
    | ballPreserved _ ht ih => rw [ht] at *; exact ih
  have hx : xBound = 9.6 := by norm_num [xBound]
  have hz : zBound = 5.6 := by norm_num [zBound]
  exact ⟨hx ▸ hb.1, hz ▸ hb.2⟩

/-- Witness for C2: one tick of `update` from the freshly constructed room. -/
theorem C2_ball_within_bounds_witness :
    |(update (PongState.init Mode.local Kind.oneVsOne 0) 16 0 0).ball.x| ≤ 9.6 ∧
      |(update (PongState.init Mode.local Kind.oneVsOne 0) 16 0 0).ball.z| ≤ 5.6 :=
  C2_ball_within_bounds _ (Reachable.tick 16 0 0 (Reachable.init Mode.local Kind.oneVsOne 0))

/-! ## The physics path of `update`, named for the per-tick claims -/

/-- `dt = Math.min((now - this.last) / 1000, 0.033)`. -/
def tickDt (s : PongState) (now : ℚ) : ℚ :=
  min ((now - s.last) / 1000) (33 / 1000)

/-- The state reached at the `// Score and reset` comment of `update`:
`last` committed, ball moved, wall-bounced, paddle collisions applied. -/
def preScore (s : PongState) (now : ℚ) : PongState :=
  physPhase { s with last := now } (tickDt s now)

/-- On the non-finalising path, `update` is exactly the physics phase followed
by the score-and-reset block. -/
theorem update_physics (s : PongState) (now r1 r2 : ℚ)
    (hst : s.status = Status.inProgress) (ht : ¬ now ≥ s.gameEndTime)
    (hsc : ¬ (maxScore ≤ s.leftScore ∨ maxScore ≤ s.rightScore)) :
    update s now r1 r2 = scoreAndReset (preScore s now) r1 r2 := by
  unfold update
  rw [if_neg (by simp [hst]), if_neg ht]
  dsimp only
  rw [if_neg hsc]
  rfl

theorem collideLeft_leftScore (s : PongState) : (collideLeft s).leftScore = s.leftScore := by
  unfold collideLeft
  split_ifs <;> rfl

theorem collideLeft_rightScore (s : PongState) : (collideLeft s).rightScore = s.rightScore := by
  unfold collideLeft
  split_ifs <;> rfl

theorem collideRight_leftScore (s : PongState) : (collideRight s).leftScore = s.leftScore := by
  unfold collideRight
  split_ifs <;> rfl

theorem collideRight_rightScore (s : PongState) : (collideRight s).rightScore = s.rightScore := by
  unfold collideRight
  split_ifs <;> rfl

theorem preScore_leftScore (s : PongState) (now : ℚ) :
    (preScore s now).leftScore = s.leftScore := by
  unfold preScore physPhase
  rw [collideRight_leftScore, collideLeft_leftScore]

theorem preScore_rightScore (s : PongState) (now : ℚ) :
    (preScore s now).rightScore = s.rightScore := by
  unfold preScore physPhase
  rw [collideRight_rightScore, collideLeft_rightScore]

/-- C3 (confirmed). In the Paddle engine, a tick whose physics phase leaves
the ball past an x-bound awards no point when no paddle has touched the ball
since the last reset (`hitter = 0`); otherwise the side opposite the crossed
bound gains exactly one point; in both cases the ball resets to `(0,0)` with
`vx = ±6` (sign from the random draw `r1`) and `vz = (r2 − 0.5)·4 ∈ [-2, 2]`. -/
theorem C3_crossing_scores_and_resets (s : PongState) (now r1 r2 : ℚ)
    (hst : s.status = Status.inProgress) (ht : ¬ now ≥ s.gameEndTime)
    (hsc : ¬ (maxScore ≤ s.leftScore ∨ maxScore ≤ s.rightScore))
    (hr2 : 0 ≤ r2 ∧ r2 < 1)
    (hcross : (preScore s now).ball.x < -xBound ∨ (preScore s now).ball.x > xBound) :
    (update s now r1 r2).ball.x = 0 ∧ (update s now r1 r2).ball.z = 0 ∧
    ((update s now r1 r2).ball.vx = 6 ∨ (update s now r1 r2).ball.vx = -6) ∧
    (-2 ≤ (update s now r1 r2).ball.vz ∧ (update s now r1 r2).ball.vz ≤ 2) ∧
    ((preScore s now).hitter = 0 →
      (update s now r1 r2).leftScore = s.leftScore ∧
      (update s now r1 r2).rightScore = s.rightScore) ∧
    ((preScore s now).hitter ≠ 0 → (preScore s now).ball.x > xBound →
      (update s now r1 r2).leftScore = s.leftScore + 1 ∧
      (update s now r1 r2).rightScore = s.rightScore) ∧
    ((preScore s now).hitter ≠ 0 → (preScore s now).ball.x < -xBound →
      (update s now r1 r2).rightScore = s.rightScore + 1 ∧
      (update s now r1 r2).leftScore = s.leftScore) := by
  rw [update_physics s now r1 r2 hst ht hsc]
  unfold scoreAndReset
  rw [if_pos hcross]
  refine ⟨rfl, rfl, ?_, ?_, ?_, ?_, ?_⟩
  · by_cases hr : r1 > 1 / 2
    · left; rw [if_pos hr]; norm_num
    · right; rw [if_neg hr]; norm_num
  · constructor <;> [nlinarith [hr2.1]; nlinarith [hr2.2]]
  · intro h0
    rw [if_neg (by simp [h0]), if_neg (by simp [h0])]
    exact ⟨preScore_leftScore s now, preScore_rightScore s now⟩
  · intro hh hx
    have hnotneg : ¬ ((preScore s now).ball.x < -xBound ∧ (preScore s now).hitter ≠ 0) := by
      intro hc
      have hxb : (0 : ℚ) < xBound := by norm_num [xBound]
      linarith [hc.1, hx]
    rw [if_neg hnotneg, if_pos ⟨hx, hh⟩]
    exact ⟨by rw [preScore_leftScore], by rw [preScore_rightScore]⟩
  · intro hh hx
    rw [if_pos ⟨hx, hh⟩]
    exact ⟨by rw [preScore_rightScore], by rw [preScore_leftScore]⟩

/-- Concrete pong state for the C3 witness: in-progress, ball at `x = 9.58`
moving right having last been touched by the left paddle (`hitter = 1`). -/
def c3state : PongState :=
  { PongState.init Mode.local Kind.oneVsOne 0 with
      status := .inProgress
      gameEndTime := 1000000
      round := 1
      matchList := [newMatch 1 2]
      hitter := 1
      ball := { x := 479 / 50, z := 0, vx := 6, vz := 0, color := 0xffffff } }

/-- Witness for C3 at `c3state`: the crossing after a left-paddle touch gives
the left side one point and re-serves from the centre. -/
theorem C3_crossing_scores_and_resets_witness :
    (update c3state 100 (7 / 10) (1 / 4)).ball.x = 0 ∧
      (update c3state 100 (7 / 10) (1 / 4)).leftScore = c3state.leftScore + 1 ∧
      (update c3state 100 (7 / 10) (1 / 4)).rightScore = c3state.rightScore := by
  have hx : (preScore c3state 100).ball.x = 4889 / 500 := by
    norm_num [preScore, physPhase, tickDt, collideLeft, collideRight, moveBall, bounceZ,
      paddleHit, ratAbs, c3state, PongState.init, xBound, zBound]
  have hhit : (preScore c3state 100).hitter = 1 := by
    norm_num [preScore, physPhase, tickDt, collideLeft, collideRight, moveBall, bounceZ,
      paddleHit, ratAbs, c3state, PongState.init, xBound, zBound]
  have h := C3_crossing_scores_and_resets c3state 100 (7 / 10) (1 / 4) rfl (by decide) (by decide)
    ⟨by norm_num, by norm_num⟩ (by right; rw [hx]; norm_num [xBound])
  have hh := h.2.2.2.2.2.1 (by rw [hhit]; decide) (by rw [hx]; norm_num [xBound])
  exact ⟨h.1, hh.1, hh.2⟩

/-- `(bounceZ b).z` is the clamp of `b.z` to `[−5.6, 5.6]`. -/
theorem bounceZ_z_eq (b : Ball) :
    (bounceZ b).z = if b.z > zBound then zBound
      else if b.z < -zBound then -zBound else b.z := by
  unfold bounceZ
  split_ifs with h h1 h2 <;> first | rfl | (exfalso; tauto)

theorem bounceZ_vz_of_cross (b : Ball) (h : b.z > zBound ∨ b.z < -zBound) :
    (bounceZ b).vz = b.vz * (-1) := by
  unfold bounceZ
  rw [if_pos h]
  split_ifs <;> rfl

theorem bounceZ_vz_of_nocross (b : Ball) (h : ¬ (b.z > zBound ∨ b.z < -zBound)) :
    (bounceZ b).vz = b.vz := by
  unfold bounceZ
  rw [if_neg h]

theorem collideLeft_eq_self (s : PongState)
    (h : ¬ (paddleHit s.ball s.leftPaddle = true ∧ s.ball.vx < 0)) : collideLeft s = s := by
  unfold collideLeft
  rw [if_neg h]

theorem collideRight_eq_self (s : PongState)
    (h : ¬ (paddleHit s.ball s.rightPaddle = true ∧ s.ball.vx > 0)) : collideRight s = s := by
  unfold collideRight
  rw [if_neg h]

/-- C6 (corrected). On a physics tick with no paddle contact and no x-bound
crossing, the ball advances by velocity × `dt` where `dt = min(elapsed
seconds, 0.033)` — not the raw elapsed time — and on crossing the z-bound the
position is clamped to `±5.6` and the z-velocity reflected. -/
theorem C6_tick_advance_amended (s : PongState) (now r1 r2 : ℚ)
    (hst : s.status = Status.inProgress) (ht : ¬ now ≥ s.gameEndTime)
    (hsc : ¬ (maxScore ≤ s.leftScore ∨ maxScore ≤ s.rightScore))
    (hnoX : ¬ ((preScore s now).ball.x < -xBound ∨ (preScore s now).ball.x > xBound))
    (hnoL : ¬ (paddleHit (bounceZ (moveBall s.ball (tickDt s now))) s.leftPaddle = true ∧
               (bounceZ (moveBall s.ball (tickDt s now))).vx < 0))
    (hnoR : ¬ (paddleHit (bounceZ (moveBall s.ball (tickDt s now))) s.rightPaddle = true ∧
               (bounceZ (moveBall s.ball (tickDt s now))).vx > 0)) :
    (update s now r1 r2).ball.x = s.ball.x + s.ball.vx * tickDt s now ∧
    (update s now r1 r2).ball.z =
      (if s.ball.z + s.ball.vz * tickDt s now > zBound then zBound
       else if s.ball.z + s.ball.vz * tickDt s now < -zBound then -zBound
       else s.ball.z + s.ball.vz * tickDt s now) ∧
    ((s.ball.z + s.ball.vz * tickDt s now > zBound ∨
      s.ball.z + s.ball.vz * tickDt s now < -zBound) →
      (update s now r1 r2).ball.vz = -s.ball.vz) := by
  rw [update_physics s now r1 r2 hst ht hsc]
  unfold scoreAndReset
  rw [if_neg hnoX]
  have hball : (preScore s now).ball = bounceZ (moveBall s.ball (tickDt s now)) := by
    show (collideRight (collideLeft
        { s with last := now, ball := bounceZ (moveBall s.ball (tickDt s now)) })).ball = _
    rw [collideLeft_eq_self _ (by exact hnoL), collideRight_eq_self _ (by exact hnoR)]
  rw [hball]
  refine ⟨?_, ?_, ?_⟩
  · rw [bounceZ_x]
    rfl
  · rw [bounceZ_z_eq]
    rfl
  · intro hcross
    have : (moveBall s.ball (tickDt s now)).z = s.ball.z + s.ball.vz * tickDt s now := rfl
    rw [bounceZ_vz_of_cross _ (by rw [this]; exact hcross)]
    show s.ball.vz * (-1) = -s.ball.vz
    ring

/-- Concrete pong state for the C6 theorems: in-progress, 100 ms since the
previous tick, ball at the origin moving right. -/
def c6state : PongState :=
  { PongState.init Mode.local Kind.oneVsOne 0 with
      status := .inProgress
      gameEndTime := 1000000
      ball := { x := 0, z := 0, vx := 6, vz := 0, color := 0xffffff } }

/-- Counterexample to C6 as stated: with 100 ms of real elapsed time the claim
predicts an x-advance of `vx · 0.1 = 0.6`, but the tick advances the ball by
`vx · min(0.1, 0.033) = 0.198`. -/
theorem C6_counterexample :
    (update c6state 100 0 0).ball.x = 99 / 500 ∧
      c6state.ball.x + c6state.ball.vx * ((100 - c6state.last) / 1000) = 3 / 5 ∧
      (99 / 500 : ℚ) ≠ 3 / 5 := by
  refine ⟨?_, ?_, by norm_num⟩
  · rw [update_physics c6state 100 0 0 rfl (by decide) (by decide)]
    norm_num [scoreAndReset, preScore, physPhase, tickDt, collideLeft, collideRight,
      moveBall, bounceZ, paddleHit, ratAbs, c6state, PongState.init, xBound, zBound]
  · norm_num [c6state, PongState.init]

/-- Witness for the amended C6 at `c6state`. -/
theorem C6_tick_advance_amended_witness :
    (update c6state 100 0 0).ball.x = c6state.ball.x + c6state.ball.vx * tickDt c6state 100 ∧
      (update c6state 100 0 0).ball.z =
        (if c6state.ball.z + c6state.ball.vz * tickDt c6state 100 > zBound then zBound
         else if c6state.ball.z + c6state.ball.vz * tickDt c6state 100 < -zBound then -zBound
         else c6state.ball.z + c6state.ball.vz * tickDt c6state 100) := by
  have h := C6_tick_advance_amended c6state 100 0 0 rfl (by decide) (by decide)
    (by norm_num [preScore, physPhase, tickDt, collideLeft, collideRight, moveBall, bounceZ,
        paddleHit, ratAbs, c6state, PongState.init, xBound, zBound])
    (by norm_num [tickDt, moveBall, bounceZ, paddleHit, ratAbs, c6state, PongState.init,
        xBound, zBound])
    (by norm_num [tickDt, moveBall, bounceZ, paddleHit, ratAbs, c6state, PongState.init,
        xBound, zBound])
  exact ⟨h.1, h.2.1⟩

/-! ## C1: tie handling at round end -/

theorem kcMatchmake_matchList_suffix (s : KCState) (rs : List ℕ) :
    ∃ t, (kcMatchmake s rs).matchList = s.matchList ++ t := by
  have hout : ∀ X : KCState,
      (if X.round ≤ 3 then { X with status := Status.starting, timeLeft := 20 } else X).matchList
        = X.matchList := by
    intro X
    split_ifs <;> rfl
  unfold kcMatchmake
  dsimp only
  rw [hout]
  by_cases h1 : s.round = 1
  · rw [if_pos h1]
    exact ⟨_, rfl⟩
  · rw [if_neg h1]
    by_cases h2 : s.round = 2
    · rw [if_pos h2]
      split
      · exact ⟨[], by rw [List.append_nil] <;> first | rfl | simp [kcResetSides]⟩
      · exact ⟨[], by rw [List.append_nil] <;> first | rfl | simp [kcResetSides]⟩
    · rw [if_neg h2]
      by_cases h3 : s.round = 3
      · rw [if_pos h3]
        split
        · split
          · exact ⟨_, rfl⟩
          · exact ⟨[], by rw [List.append_nil] <;> first | rfl | simp [kcResetSides]⟩
        · exact ⟨[], by rw [List.append_nil] <;> first | rfl | simp [kcResetSides]⟩
      · rw [if_neg h3]
        exact ⟨[], by rw [List.append_nil] <;> first | rfl | simp [kcResetSides]⟩

theorem kcMatchmake_getElem? (s : KCState) (rs : List ℕ) (i : ℕ)
    (h : i < s.matchList.length) :
    (kcMatchmake s rs).matchList[i]? = s.matchList[i]? := by
  obtain ⟨t, htl⟩ := kcMatchmake_matchList_suffix s rs
  rw [htl, List.getElem?_append_left h]

/-- Concrete reaction-engine state for the C1 counterexample: a 1v1 room whose
countdown expires with the score tied 0–0. -/
def kcTieState : KCState :=
  { score1 := 0, score2 := 0, prompts := ("w", "ArrowUp"), timeLeft := 1,
    players := [1, 2], pdata := fun _ => Player.empty, matchList := [newMatch 1 2],
    intervalLive := true, timers := 1, player1ready := true, player2ready := true,
    p1 := some "A", p2 := some "B", status := .inProgress, mode := .remote,
    kind := .oneVsOne, round := 1 }

/-- Counterexample to C1 as stated: in a **1v1** Reaction room a tied round
still records a winner — seat B's participant (player id 2) — instead of no
winner. -/
theorem C1_tie_counterexample :
    kcTieState.kind = Kind.oneVsOne ∧ kcTieState.score1 = kcTieState.score2 ∧
      (kcTick kcTieState []).status = Status.finished ∧
      ((kcTick kcTieState []).matchList.getD 0 default).winner = some 2 ∧
      ((kcTick kcTieState []).matchList.getD 0 default).winner ≠ none := by
  refine ⟨rfl, rfl, by decide, by decide, by decide⟩

/-- C1 amended. When a round ends with the scores tied: in the Paddle engine
a tournament room records seat B's participant as winner and a 1v1 room keeps
the winner unset; in the Reaction engine seat B's participant is recorded as
winner regardless of room kind — 1v1 included. -/
theorem C1_tie_amended :
    (∀ (s : PongState) (now r1 r2 : ℚ) (m : GMatch),
        s.status = Status.inProgress → now ≥ s.gameEndTime →
        s.leftScore = s.rightScore →
        s.matchList[s.round - 1]? = some m →
        ((update s now r1 r2).matchList[s.round - 1]?).map GMatch.winner =
          some (if s.kind = Kind.oneVsOne then m.winner else some m.player2)) ∧
    (∀ (s : KCState) (rs : List ℕ) (m : GMatch),
        s.timeLeft ≤ 1 → s.intervalLive = true → s.score1 = s.score2 →
        s.matchList[s.round - 1]? = some m →
        ((kcTick s rs).matchList[s.round - 1]?).map GMatch.winner =
          some (some m.player2)) := by
  constructor
  · intro s now r1 r2 m hst ht hsc hm
    unfold update
    rw [if_neg (by simp [hst])]
    dsimp only
    rw [if_pos ht]
    unfold finalizeTimeout
    dsimp only
    rw [modifyAt_getElem?_self, hm]
    simp only [Option.map_some']
    have hng : ¬ s.leftScore > s.rightScore := by omega
    have hng2 : ¬ s.rightScore > s.leftScore := by omega
    rw [if_neg hng, if_neg hng2]
    by_cases hk : s.kind = Kind.oneVsOne
    · rw [if_pos hk, if_pos hk]
    · rw [if_neg hk, if_neg hk]
  · intro s rs m ht hlive hsc hm
    have hlt : s.round - 1 < s.matchList.length := by
      have := List.getElem?_eq_some.mp hm
      exact this.1
    unfold kcTick
    try dsimp only
    rw [if_pos ⟨by omega, hlive⟩]
    by_cases hk : s.kind = Kind.tournament
    · rw [if_pos hk, kcMatchmake_getElem?]
      · dsimp only
        rw [modifyAt_getElem?_self, hm]
        simp only [Option.map_some']
        rw [if_neg (by omega : ¬ s.score1 > s.score2)]
      · dsimp only
        rw [modifyAt_length]
        exact hlt
    · rw [if_neg hk]
      dsimp only
      rw [modifyAt_getElem?_self, hm]
      simp only [Option.map_some']
      rw [if_neg (by omega : ¬ s.score1 > s.score2)]

/-- Concrete paddle-engine tournament state whose round clock has expired with
the score tied. -/
def pongTieState : PongState :=
  { c6state with kind := Kind.tournament, round := 1, matchList := [newMatch 7 8] }

/-- Witness for the amended C1: a pong tournament tie (winner becomes seat B)
and the `kcTieState` reaction tie. -/
theorem C1_tie_amended_witness :
    ((update pongTieState 2000000 0 0).matchList[0]?).map GMatch.winner = some (some 8) ∧
      ((kcTick kcTieState []).matchList[0]?).map GMatch.winner = some (some 2) := by
  constructor
  · have h := C1_tie_amended.1 pongTieState 2000000 0 0 (newMatch 7 8) rfl (by decide) rfl
      (by decide)
    simpa using h
  · have h := C1_tie_amended.2 kcTieState [] (newMatch 1 2) (by decide) rfl rfl (by decide)
    simpa using h

/-! ## C4: timer cancellation on teardown -/

/-- Concrete in-progress remote pong tournament with one live interval; every
seat's socket id is `"p"` so the disconnect below hits a seated player. -/
def pongLiveT : PongState :=
  { PongState.init Mode.remote Kind.tournament 0 with
      status := .inProgress
      loop := true
      timers := 1
      round := 1
      matchList := [newMatch 1 2, newMatch 3 4]
      players := [1, 2, 3, 4]
      pdata := fun _ => { Player.empty with socketId := some "p" } }

/-- Concrete in-progress remote key-clash tournament with one live interval. -/
def kcLiveT : KCState :=
  { kcTieState with
      kind := .tournament
      timeLeft := 10
      players := [1, 2, 3, 4]
      pdata := fun _ => { Player.empty with socketId := some "p" } }

/-- C4 (code_bug evidence). A mid-match disconnect in a tournament room tears
the room down (it is removed from its registry) but leaves the repeating tick
interval alive — in both engines the teardown branch never calls
`clearInterval`. -/
theorem C4_teardown_keeps_timer :
    ((pongDisconnect pongLiveT "p").2 = true ∧
      (pongDisconnect pongLiveT "p").1.timers = 1 ∧
      (pongDisconnect pongLiveT "p").1.loop = true) ∧
    ((kcDisconnect kcLiveT "p").2 = true ∧
      (kcDisconnect kcLiveT "p").1.timers = 1 ∧
      (kcDisconnect kcLiveT "p").1.intervalLive = true) := by
  refine ⟨⟨by decide, by decide, by decide⟩, ⟨by decide, by decide, by decide⟩⟩

/-! ## C5: join-time name validation -/

/-- A local tournament submission in which the third name repeats the first. -/
def dupNames : Names :=
  { player1 := "A", player2 := "B", player3 := "A", player4 := "C" }

/-- Counterexample to C5 as stated: a local tournament join whose third name
equals its first is accepted — `validatePlayerNames` only compares
consecutive names, so the duplicate is never seen. -/
theorem C5_counterexample :
    dupNames.player3 = dupNames.player1 ∧
      validatePlayerNames dupNames Kind.tournament Mode.local = 0 ∧
      namesCheck [] dupNames Kind.tournament Mode.local = none := by
  refine ⟨rfl, by decide, by decide⟩

theorem validatePlayerNames_eq_zero (ns : Names) (kind : Kind) (mode : Mode) :
    validatePlayerNames ns kind mode = 0 ↔
      (validName ns.player1 = true ∧
       (mode = Mode.local → validName ns.player2 = true ∧ ns.player2 ≠ ns.player1) ∧
       (mode = Mode.local ∧ kind = Kind.tournament →
         validName ns.player3 = true ∧ ns.player3 ≠ ns.player2 ∧
         validName ns.player4 = true ∧ ns.player4 ≠ ns.player3)) := by
  unfold validatePlayerNames
  split_ifs with h1 h2 h3 h4
  · constructor
    · intro h; exact absurd h (by decide)
    · intro h
      rw [h.1] at h1
      exact absurd h1 (by decide)
  · constructor
    · intro h; exact absurd h (by decide)
    · intro h
      obtain ⟨hs2, hne2⟩ := h.2.1 h2.1
      rcases h2.2 with hbad | hbad
      · rw [hs2] at hbad; exact absurd hbad (by decide)
      · exact hne2 hbad
  · constructor
    · intro h; exact absurd h (by decide)
    · intro h
      obtain ⟨hs3, hne3, _, _⟩ := h.2.2 ⟨h3.1, h3.2.1⟩
      rcases h3.2.2 with hbad | hbad
      · rw [hs3] at hbad; exact absurd hbad (by decide)
      · exact hne3 hbad
  · constructor
    · intro h; exact absurd h (by decide)
    · intro h
      obtain ⟨_, _, hs4, hne4⟩ := h.2.2 ⟨h4.1, h4.2.1⟩
      rcases h4.2.2 with hbad | hbad
      · rw [hs4] at hbad; exact absurd hbad (by decide)
      · exact hne4 hbad
  · simp only [true_iff, eq_self_iff_true]
    push_neg at h1 h2 h3 h4
    refine ⟨by simpa using h1, ?_, ?_⟩
    · intro hm
      have := h2 hm
      push_neg at this
      exact ⟨by simpa using this.1, this.2⟩
    · rintro ⟨hm, hk⟩
      have t3 := h3 hm hk
      have t4 := h4 hm hk
      push_neg at t3 t4
      exact ⟨by simpa using t3.1, t3.2, by simpa using t4.1, t4.2⟩

/-- C5 amended. The `"names"` join check accepts exactly when: the first
submitted name is well-formed; in local mode the second name is well-formed
and differs from the first; in a local tournament the third and fourth names
are well-formed and each differs from its *predecessor only* (non-adjacent
duplicates pass); and the **first** submitted name differs case-sensitively
from every already-seated name (co-submitted names are never checked against
seated names). -/
theorem C5_name_validation_amended (seated : List (Option String)) (ns : Names)
    (kind : Kind) (mode : Mode) :
    namesCheck seated ns kind mode = none ↔
      (validName ns.player1 = true ∧
       (mode = Mode.local → validName ns.player2 = true ∧ ns.player2 ≠ ns.player1) ∧
       (mode = Mode.local ∧ kind = Kind.tournament →
         validName ns.player3 = true ∧ ns.player3 ≠ ns.player2 ∧
         validName ns.player4 = true ∧ ns.player4 ≠ ns.player3) ∧
       (∀ i, i < 3 → i < seated.length → seated.getD i none ≠ some ns.player1)) := by
  unfold namesCheck
  dsimp only
  by_cases hp : validatePlayerNames ns kind mode > 0
  · rw [if_pos hp]
    constructor
    · intro h; exact absurd h (by simp)
    · intro h
      have h0 := (validatePlayerNames_eq_zero ns kind mode).mpr ⟨h.1, h.2.1, h.2.2.1⟩
      omega
  · rw [if_neg hp]
    have hvp := (validatePlayerNames_eq_zero ns kind mode).mp (by omega)
    constructor
    · intro h
      refine ⟨hvp.1, hvp.2.1, hvp.2.2, ?_⟩
      intro i hi3 hil heq
      by_cases c1 : 1 ≤ seated.length ∧ seated.getD 0 none = some ns.player1
      · rw [if_pos c1] at h; exact absurd h (by simp)
      · rw [if_neg c1] at h
        by_cases c2 : 2 ≤ seated.length ∧ seated.getD 1 none = some ns.player1
        · rw [if_pos c2] at h; exact absurd h (by simp)
        · rw [if_neg c2] at h
          by_cases c3 : 3 ≤ seated.length ∧ seated.getD 2 none = some ns.player1
          · rw [if_pos c3] at h; exact absurd h (by simp)
          · interval_cases i
            · exact c1 ⟨by omega, heq⟩
            · exact c2 ⟨by omega, heq⟩
            · exact c3 ⟨by omega, heq⟩
    · intro h
      have n1 : ¬ (1 ≤ seated.length ∧ seated.getD 0 none = some ns.player1) := by
        rintro ⟨hl, he⟩
        exact h.2.2.2 0 (by omega) (by omega) he
      have n2 : ¬ (2 ≤ seated.length ∧ seated.getD 1 none = some ns.player1) := by
        rintro ⟨hl, he⟩
        exact h.2.2.2 1 (by omega) (by omega) he
      have n3 : ¬ (3 ≤ seated.length ∧ seated.getD 2 none = some ns.player1) := by
        rintro ⟨hl, he⟩
        exact h.2.2.2 2 (by omega) (by omega) he
      rw [if_neg n1, if_neg n2, if_neg n3]

/-- Witness for the amended C5: `dupNames` is accepted into a room seating
one player named `"Zed"`. -/
theorem C5_name_validation_amended_witness :
    namesCheck [some "Zed"] dupNames Kind.tournament Mode.local = none :=
  (C5_name_validation_amended [some "Zed"] dupNames Kind.tournament Mode.local).mpr
    ⟨by decide, fun _ => ⟨by decide, by decide⟩,
     fun _ => ⟨by decide, by decide, by decide, by decide⟩,
     by intro i hi3 hil; interval_cases i <;> first | decide | exact absurd hil (by decide)⟩

/-! ## C7: tournament bracket pairing -/

theorem kcOuter_matchList (X : KCState) :
    (if X.round ≤ 3 then { X with status := Status.starting, timeLeft := 20 }
     else X).matchList = X.matchList := by
  split_ifs <;> rfl

/-- C7 (confirmed). In both engines' `matchmake`: round 1 pairs the shuffled
participants as `players[0] vs players[1]` and `players[2] vs players[3]`;
round 2 creates no match; round 3 appends a match exactly when both semifinal
winners are known, pairing precisely those winners; and from round 4 on no
further match is ever created. -/
theorem C7_bracket_pairing :
    (∀ (s : PongState) (rs : List ℕ),
      (s.round = 1 →
        (pongMatchmake s rs).matchList = s.matchList ++
          [newMatch ((shufflePlayers rs s.players).getD 0 0)
             ((shufflePlayers rs s.players).getD 1 0),
           newMatch ((shufflePlayers rs s.players).getD 2 0)
             ((shufflePlayers rs s.players).getD 3 0)]) ∧
      (s.round = 2 → (pongMatchmake s rs).matchList = s.matchList) ∧
      (s.round = 3 → ∀ m0 m1 w0 w1, s.matchList[0]? = some m0 →
        s.matchList[1]? = some m1 → m0.winner = some w0 → m1.winner = some w1 →
        (pongMatchmake s rs).matchList = s.matchList ++ [newMatch w0 w1]) ∧
      (s.round = 3 → ∀ m0 m1, s.matchList[0]? = some m0 → s.matchList[1]? = some m1 →
        (m0.winner = none ∨ m1.winner = none) →
        (pongMatchmake s rs).matchList = s.matchList) ∧
      (4 ≤ s.round → (pongMatchmake s rs).matchList = s.matchList)) ∧
    (∀ (s : KCState) (rs : List ℕ),
      (s.round = 1 →
        (kcMatchmake s rs).matchList = s.matchList ++
          [newMatch ((shufflePlayers rs s.players).getD 0 0)
             ((shufflePlayers rs s.players).getD 1 0),
           newMatch ((shufflePlayers rs s.players).getD 2 0)
             ((shufflePlayers rs s.players).getD 3 0)]) ∧
      (s.round = 2 → (kcMatchmake s rs).matchList = s.matchList) ∧
      (s.round = 3 → ∀ m0 m1 w0 w1, s.matchList[0]? = some m0 →
        s.matchList[1]? = some m1 → m0.winner = some w0 → m1.winner = some w1 →
        (kcMatchmake s rs).matchList = s.matchList ++ [newMatch w0 w1]) ∧
      (s.round = 3 → ∀ m0 m1, s.matchList[0]? = some m0 → s.matchList[1]? = some m1 →
        (m0.winner = none ∨ m1.winner = none) →
        (kcMatchmake s rs).matchList = s.matchList) ∧
      (4 ≤ s.round → (kcMatchmake s rs).matchList = s.matchList)) := by
  constructor
  · intro s rs
    refine ⟨?_, ?_, ?_, ?_, ?_⟩
    · intro h1
      unfold pongMatchmake
      rw [if_pos h1]
      rfl
    · intro h2
      unfold pongMatchmake
      rw [if_neg (by omega), if_pos h2]
      split <;> rfl
    · intro h3 m0 m1 w0 w1 hm0 hm1 hw0 hw1
      unfold pongMatchmake
      rw [if_neg (by omega), if_neg (by omega), if_pos h3, hm0, hm1]
      dsimp only
      rw [hw0, hw1]
      rfl
    · intro h3 m0 m1 hm0 hm1 hnone
      unfold pongMatchmake
      rw [if_neg (by omega), if_neg (by omega), if_pos h3, hm0, hm1]
      dsimp only
      rcases hw0 : m0.winner with _ | w0 <;> rcases hw1 : m1.winner with _ | w1 <;>
        try rfl
      exfalso
      rcases hnone with h | h
      · rw [hw0] at h; exact absurd h (by simp)
      · rw [hw1] at h; exact absurd h (by simp)
    · intro h4
      unfold pongMatchmake
      rw [if_neg (by omega), if_neg (by omega), if_neg (by omega)]
  · intro s rs
    refine ⟨?_, ?_, ?_, ?_, ?_⟩
    · intro h1
      unfold kcMatchmake
      dsimp only
      rw [kcOuter_matchList, if_pos h1]
      rfl
    · intro h2
      unfold kcMatchmake
      dsimp only
      rw [kcOuter_matchList, if_neg (by omega), if_pos h2]
      split <;> rfl
    · intro h3 m0 m1 w0 w1 hm0 hm1 hw0 hw1
      unfold kcMatchmake
      dsimp only
      rw [kcOuter_matchList, if_neg (by omega), if_neg (by omega), if_pos h3, hm0, hm1]
      dsimp only
      rw [hw0, hw1]
      rfl
    · intro h3 m0 m1 hm0 hm1 hnone
      unfold kcMatchmake
      dsimp only
      rw [kcOuter_matchList, if_neg (by omega), if_neg (by omega), if_pos h3, hm0, hm1]
      dsimp only
      rcases hw0 : m0.winner with _ | w0 <;> rcases hw1 : m1.winner with _ | w1 <;>
        try rfl
      exfalso
      rcases hnone with h | h
      · rw [hw0] at h; exact absurd h (by simp)
      · rw [hw1] at h; exact absurd h (by simp)
    · intro h4
      unfold kcMatchmake
      dsimp only
      rw [kcOuter_matchList, if_neg (by omega), if_neg (by omega), if_neg (by omega)]

/-- Concrete four-player pong tournament at round 1 for the C7 witness. -/
def c7pong : PongState :=
  { PongState.init Mode.local Kind.tournament 0 with
      round := 1
      players := [1, 2, 3, 4] }

/-- Witness for C7: with an empty shuffle oracle (identity permutation) the
semifinals pair `1 vs 2` and `3 vs 4`. -/
theorem C7_bracket_pairing_witness :
    (pongMatchmake c7pong []).matchList = [newMatch 1 2, newMatch 3 4] := by
  have h := (C7_bracket_pairing.1 c7pong []).1 rfl
  rw [h]
  decide

/-! ## C8: re-entrant start is a no-op -/

theorem pongStart_noop (t : PongState) (now r1 r2 : ℚ)
    (h1 : t.status = Status.inProgress) (h2 : t.loop = true) :
    pongStartGame1v1 t now r1 r2 = t := by
  unfold pongStartGame1v1
  rw [if_neg (by simp [h2])]
  rw [← h1]

theorem pongStart_fields (s : PongState) (now r1 r2 : ℚ) (p1 p2 : ℕ)
    (hloop : s.loop = false)
    (hp1 : s.players.find? (fun pid => (s.pdata pid).side = some Side.left) = some p1)
    (hp2 : s.players.find? (fun pid => (s.pdata pid).side = some Side.right) = some p2) :
    (pongStartGame1v1 s now r1 r2).timers = s.timers + 1 ∧
      (pongStartGame1v1 s now r1 r2).status = Status.inProgress ∧
      (pongStartGame1v1 s now r1 r2).loop = true := by
  unfold pongStartGame1v1
  rw [if_pos (by simp [hloop])]
  dsimp only
  rw [hp1, hp2]
  exact ⟨rfl, rfl, rfl⟩

theorem kcStart_noop (t : KCState) (rw1 ra1 : ℕ) (h : t.status = Status.inProgress) :
    kcStartGame t rw1 ra1 = t := by
  unfold kcStartGame
  rw [if_pos h]

theorem kcStart_fields (k : KCState) (rw1 ra1 : ℕ) (h : k.status ≠ Status.inProgress) :
    (kcStartGame k rw1 ra1).timers = k.timers + 1 ∧
      (kcStartGame k rw1 ra1).status = Status.inProgress ∧
      (kcStartGame k rw1 ra1).intervalLive = true := by
  unfold kcStartGame
  rw [if_neg h]
  refine ⟨?_, ?_, rfl⟩ <;> dsimp only <;> split_ifs <;> rfl

/-- C8 (confirmed). From a not-yet-running room with no live interval, the
first start trigger creates exactly one tick interval, and a second trigger
fired immediately afterwards is a no-op — in the 1v1 pong namespace (guarded
by the stored interval handle) and the Reaction engine (guarded by the
in-progress status) alike. -/
theorem C8_double_start (s : PongState) (now r1 r2 now2 r1b r2b : ℚ) (p1 p2 : ℕ)
    (k : KCState) (rw1 ra1 rw2 ra2 : ℕ)
    (hloop : s.loop = false) (ht : s.timers = 0)
    (hp1 : s.players.find? (fun pid => (s.pdata pid).side = some Side.left) = some p1)
    (hp2 : s.players.find? (fun pid => (s.pdata pid).side = some Side.right) = some p2)
    (hk : k.status ≠ Status.inProgress) (hkt : k.timers = 0) :
    ((pongStartGame1v1 s now r1 r2).timers = 1 ∧
      (pongStartGame1v1 s now r1 r2).status = Status.inProgress ∧
      pongStartGame1v1 (pongStartGame1v1 s now r1 r2) now2 r1b r2b =
        pongStartGame1v1 s now r1 r2) ∧
    ((kcStartGame k rw1 ra1).timers = 1 ∧
      (kcStartGame k rw1 ra1).status = Status.inProgress ∧
      kcStartGame (kcStartGame k rw1 ra1) rw2 ra2 = kcStartGame k rw1 ra1) := by
  obtain ⟨hpt, hps, hpl⟩ := pongStart_fields s now r1 r2 p1 p2 hloop hp1 hp2
  obtain ⟨hkt1, hks, _⟩ := kcStart_fields k rw1 ra1 hk
  refine ⟨⟨by rw [hpt, ht], hps, pongStart_noop _ now2 r1b r2b hps hpl⟩,
    ⟨by rw [hkt1, hkt], hks, kcStart_noop _ rw2 ra2 hks⟩⟩

/-- Concrete 1v1 pong room ready to start for the C8 witness: two seated
players, no interval yet. -/
def c8pong : PongState :=
  { PongState.init Mode.remote Kind.oneVsOne 0 with
      status := .starting
      players := [1, 2]
      pdata := fun j =>
        if j = 1 then { Player.empty with socketId := some "a", side := some Side.left }
        else { Player.empty with socketId := some "b", side := some Side.right } }

/-- Concrete key-clash room ready to start for the C8 witness. -/
def c8kc : KCState :=
  { kcTieState with status := .starting, timers := 0, intervalLive := false }

/-- Witness for C8 at `c8pong` / `c8kc`. -/
theorem C8_double_start_witness :
    ((pongStartGame1v1 c8pong 5 0 0).timers = 1 ∧
      pongStartGame1v1 (pongStartGame1v1 c8pong 5 0 0) 6 0 0 =
        pongStartGame1v1 c8pong 5 0 0) ∧
    ((kcStartGame c8kc 0 0).timers = 1 ∧
      kcStartGame (kcStartGame c8kc 0 0) 1 1 = kcStartGame c8kc 0 0) := by
  have h := C8_double_start c8pong 5 0 0 6 0 0 1 2 c8kc 0 0 1 1 rfl rfl
    (by decide) (by decide) (by decide) rfl
  exact ⟨⟨h.1.1, h.1.2.2⟩, ⟨h.2.1, h.2.2.2⟩⟩

/-! ## C9: pause/resume semantics -/

theorem togglePause_pause (s : PongState) (now : ℚ) (hl : s.loop = true) :
    togglePause s now =
      { s with whenPaused := now, loop := false, timers := s.timers - 1,
               status := Status.paused } := by
  unfold togglePause
  rw [if_pos hl]

theorem togglePause_resume (s : PongState) (now : ℚ) (hl : s.loop = false)
    (hst : s.status = Status.paused) :
    togglePause s now =
      { s with status := Status.inProgress,
               gameEndTime := s.gameEndTime + (now - s.whenPaused),
               loop := true, timers := s.timers + 1 } := by
  unfold togglePause
  rw [if_neg (by simp [hl]), if_pos hst]

/-- C9 (confirmed). The pause trigger is a no-op outside local mode; in a
local paddle room with a live tick interval it cancels the interval, records
the pause timestamp and enters `paused`; triggering it again restarts the
interval, returns to `in-progress` and extends `gameEndTime` by exactly the
elapsed pause duration, so paused time does not count against the round
budget. (The Reaction engine registers no pause handler at all.) -/
theorem C9_pause_resume (s : PongState) (now now2 : ℚ)
    (hm : s.mode = Mode.local) (hst : s.status = Status.inProgress)
    (hl : s.loop = true) (ht : s.timers = 1) :
    (∀ (t : PongState) (n : ℚ), t.mode ≠ Mode.local → pauseEvent t n = t) ∧
    (pauseEvent s now).status = Status.paused ∧
    (pauseEvent s now).loop = false ∧
    (pauseEvent s now).timers = 0 ∧
    (pauseEvent s now).whenPaused = now ∧
    (pauseEvent s now).gameEndTime = s.gameEndTime ∧
    (pauseEvent (pauseEvent s now) now2).status = Status.inProgress ∧
    (pauseEvent (pauseEvent s now) now2).loop = true ∧
    (pauseEvent (pauseEvent s now) now2).timers = 1 ∧
    (pauseEvent (pauseEvent s now) now2).gameEndTime =
      s.gameEndTime + (now2 - now) := by
  have hguard : ∀ (t : PongState) (n : ℚ), t.mode ≠ Mode.local → pauseEvent t n = t := by
    intro t n hmode
    unfold pauseEvent
    rw [if_neg hmode]
  have h1 : pauseEvent s now =
      { s with whenPaused := now, loop := false, timers := s.timers - 1,
               status := Status.paused } := by
    unfold pauseEvent
    rw [if_pos hm]
    exact togglePause_pause s now hl
  have h2 : pauseEvent (pauseEvent s now) now2 =
      { s with whenPaused := now, loop := true, timers := s.timers - 1 + 1,
               status := Status.inProgress,
               gameEndTime := s.gameEndTime + (now2 - now) } := by
    rw [h1]
    unfold pauseEvent
    rw [if_pos hm]
    exact togglePause_resume _ now2 rfl rfl
  rw [h2, h1]
  refine ⟨hguard, rfl, rfl, by simp [ht], rfl, rfl, rfl, rfl, by simp [ht], rfl⟩

/-- Concrete local in-progress pong room with one live interval for C9. -/
def c9pong : PongState :=
  { PongState.init Mode.local Kind.oneVsOne 0 with
      status := .inProgress, loop := true, timers := 1 }

/-- Witness for C9 at `c9pong`: pause at `t = 50`, resume at `t = 80`,
`gameEndTime` grows by 30. -/
theorem C9_pause_resume_witness :
    (pauseEvent c9pong 50).status = Status.paused ∧
      (pauseEvent c9pong 50).timers = 0 ∧
      (pauseEvent (pauseEvent c9pong 50) 80).status = Status.inProgress ∧
      (pauseEvent (pauseEvent c9pong 50) 80).timers = 1 ∧
      (pauseEvent (pauseEvent c9pong 50) 80).gameEndTime =
        c9pong.gameEndTime + (80 - 50) := by
  have h := C9_pause_resume c9pong 50 80 rfl rfl rfl rfl
  exact ⟨h.2.1, h.2.2.2.1, h.2.2.2.2.2.2.1, h.2.2.2.2.2.2.2.2.1, h.2.2.2.2.2.2.2.2.2⟩

/-! ## C10: unmapped keys in a local Reaction match -/

/-- C10 (confirmed). In a local-mode Reaction match that is in-progress with
time remaining, a key outside both the WASD and the arrow set leaves the
state entirely unchanged, whereas an incorrect key *inside* a set decrements
that column's score (prompts kept). -/
theorem C10_unmapped_key (s : KCState) (pid : ℕ) (key : String) (rwi rai : ℕ)
    (hst : s.status = Status.inProgress) (ht : 0 < s.timeLeft) :
    (key ∉ wasdKeys → key ∉ arrowKeys →
      kcKeypress s Mode.local pid key rwi rai = s) ∧
    (key ∈ wasdKeys → key ≠ s.prompts.1 →
      kcKeypress s Mode.local pid key rwi rai = { s with score1 := s.score1 - 1 }) ∧
    (key ∈ arrowKeys → key ≠ s.prompts.2 →
      kcKeypress s Mode.local pid key rwi rai = { s with score2 := s.score2 - 1 }) := by
  have hdisj : ∀ x ∈ arrowKeys, x ∉ wasdKeys := by decide
  have hguard : ¬ (s.timeLeft ≤ 0 ∨ s.status ≠ Status.inProgress) := by
    push_neg
    exact ⟨by omega, by simp [hst]⟩
  refine ⟨?_, ?_, ?_⟩
  · intro hw ha
    unfold kcKeypress
    rw [if_neg hguard, if_neg (by simp), if_neg hw, if_neg ha]
  · intro hw hne
    unfold kcKeypress
    rw [if_neg hguard, if_neg (by simp), if_pos hw, if_neg hne]
  · intro ha hne
    unfold kcKeypress
    rw [if_neg hguard, if_neg (by simp), if_neg (hdisj key ha), if_pos ha, if_neg hne]

/-- Concrete local in-progress reaction room for C10. -/
def c10kc : KCState :=
  { kcTieState with mode := .local, timeLeft := 10 }

/-- Witness for C10 at `c10kc`: the key `"x"` is a silent no-op while the
wrong WASD key `"s"` costs the left column a point. -/
theorem C10_unmapped_key_witness :
    kcKeypress c10kc Mode.local 1 "x" 0 0 = c10kc ∧
      kcKeypress c10kc Mode.local 1 "s" 0 0 = { c10kc with score1 := c10kc.score1 - 1 } := by
  have h := C10_unmapped_key c10kc 1 "x" 0 0 rfl (by decide)
  have h2 := C10_unmapped_key c10kc 1 "s" 0 0 rfl (by decide)
  exact ⟨h.1 (by decide) (by decide), h2.2.1 (by decide) (by decide)⟩

end Poonk
